import Mathlib

/-!
# TACO card battle: shallow embedding of the battle engine and result ledger

Embeds, faithfully to the source:

* the pure battle-engine helpers of `src/app/game/page.tsx`
  (`clamp`, `resolveCardEffect`, `triggerBossTurn`, `checkEnd`, and the
  synchronous decision core of `playCard`);
* the gated on-chain ledger `src/contracts/GameResults.sol`
  (`deposit`, `withdraw`, `recordGame`), and the ungated contract variant
  of `src/unnamed/part_000` (also named `GameResults` in source; here the
  namespace `GameResultsUngated`).

Modelling conventions:

* JavaScript numbers hold only integer values in the game logic, so hp,
  gold and damage are `Int`.
* `Math.random()` draws are made explicit parameters: the boss's raw
  damage draw `Math.floor(Math.random() * (20 - 10 + 1)) + 10` becomes
  `bossRawDmg u` for a unit draw `u : ℚ` with `0 ≤ u < 1`, and
  `triggerBossTurn` takes the drawn raw damage as an argument.
* Solidity `uint256` values are modelled as `ℕ`. The contracts compile
  with Solidity 0.8 checked arithmetic (no `unchecked` block), whose only
  additions are monotone counters and ether-denominated balances; an
  overflow past `2^256` would revert the call rather than wrap, so no
  wrapping behaviour exists to model. Subtraction occurs only under a
  `require` that rules out underflow.
* A reverting call is `none`: no partial state is ever observable.
* The external call of `withdraw` (`msg.sender.call{value: bal}("")`) is
  an oracle `ext : State → Bool` receiving the contract state at the
  moment of the call, so the checks-effects-interactions ordering is
  visible in the model.
-/

/-! ## Battle engine: card catalog and state (src/app/game/page.tsx) -/

/-- The card identifiers of the catalog (`CardType` in `Card.tsx` /
`page.tsx`). -/
inductive CardType
  | knights_strike
  | clerics_prayer
  | shield_wall
  | berserk_rage
  | tax_peasantry
  | iron_judgment
  | fortress_stance
  | phantom_strike
  | smoke_veil
deriving DecidableEq

/-- `BOSS_MIN_DMG` of page.tsx. -/
def BOSS_MIN_DMG : Int := 10

/-- `BOSS_MAX_DMG` of page.tsx. -/
def BOSS_MAX_DMG : Int := 20

/-- `clamp(val, min, max) = Math.max(min, Math.min(max, val))`. -/
def clamp (val lo hi : Int) : Int := max lo (min hi val)

/-- The slice of `GameState` that `resolveCardEffect` reads
(`Pick<GameState, "heroHp" | "bossHp" | "gold" | "isShielded" | "fullShield">`). -/
structure ResolveInput where
  heroHp : Int
  bossHp : Int
  gold : Int
  isShielded : Bool
  fullShield : Bool
deriving DecidableEq

/-- The record returned by `resolveCardEffect`. -/
structure ResolveResult where
  heroHp : Int
  bossHp : Int
  gold : Int
  isShielded : Bool
  fullShield : Bool
  log : String
  bossDamaged : Bool
deriving DecidableEq

/-- `resolveCardEffect(card, current)` of page.tsx: the deterministic
per-card effect table. -/
def resolveCardEffect (card : CardType) (current : ResolveInput) : ResolveResult :=
  match card with
  | .knights_strike =>
      { heroHp := current.heroHp, bossHp := clamp (current.bossHp - 15) 0 100,
        gold := current.gold, isShielded := current.isShielded,
        fullShield := current.fullShield,
        log := "Knight's Strike hits the Overlord for 15 damage!",
        bossDamaged := true }
  | .clerics_prayer =>
      { heroHp := clamp (current.heroHp + 15) 0 100, bossHp := current.bossHp,
        gold := current.gold, isShielded := current.isShielded,
        fullShield := current.fullShield,
        log := "Cleric's Prayer restores 15 HP.",
        bossDamaged := false }
  | .shield_wall =>
      { heroHp := current.heroHp, bossHp := current.bossHp,
        gold := current.gold, isShielded := true, fullShield := false,
        log := "Shield Wall raised! Next attack blocked 50%.",
        bossDamaged := false }
  | .berserk_rage =>
      { heroHp := clamp (current.heroHp - 10) 0 100,
        bossHp := clamp (current.bossHp - 30) 0 100,
        gold := current.gold, isShielded := current.isShielded,
        fullShield := current.fullShield,
        log := "Berserk Rage! 30 damage to Overlord, 10 to self!",
        bossDamaged := true }
  | .tax_peasantry =>
      { heroHp := current.heroHp, bossHp := current.bossHp,
        gold := current.gold + 15, isShielded := current.isShielded,
        fullShield := current.fullShield,
        log := "Tax Peasantry collects 15 Gold.",
        bossDamaged := false }
  | .iron_judgment =>
      { heroHp := current.heroHp, bossHp := clamp (current.bossHp - 20) 0 100,
        gold := current.gold, isShielded := current.isShielded,
        fullShield := current.fullShield,
        log := "Iron Judgment crashes down for 20 damage!",
        bossDamaged := true }
  | .fortress_stance =>
      { heroHp := clamp (current.heroHp + 5) 0 100, bossHp := current.bossHp,
        gold := current.gold, isShielded := true, fullShield := false,
        log := "Fortress Stance! Shield raised and 5 HP restored.",
        bossDamaged := false }
  | .phantom_strike =>
      if current.gold ≥ 5 then
        { heroHp := current.heroHp, bossHp := clamp (current.bossHp - 25) 0 100,
          gold := current.gold - 5, isShielded := current.isShielded,
          fullShield := current.fullShield,
          log := "Phantom Strike deals 25 damage! (-5 Gold)",
          bossDamaged := true }
      else
        { heroHp := current.heroHp, bossHp := current.bossHp,
          gold := current.gold, isShielded := current.isShielded,
          fullShield := current.fullShield,
          log := "Phantom Strike fizzles... not enough Gold!",
          bossDamaged := false }
  | .smoke_veil =>
      { heroHp := current.heroHp, bossHp := current.bossHp,
        gold := current.gold, isShielded := true, fullShield := true,
        log := "Smoke Veil! Next attack fully blocked.",
        bossDamaged := false }

/-- The raw damage drawn inside `triggerBossTurn`:
`Math.floor(Math.random() * (BOSS_MAX_DMG - BOSS_MIN_DMG + 1)) + BOSS_MIN_DMG`,
with the unit draw `u = Math.random()` (so `0 ≤ u < 1`) made explicit. -/
def bossRawDmg (u : ℚ) : Int :=
  ⌊u * ((BOSS_MAX_DMG : ℚ) - (BOSS_MIN_DMG : ℚ) + 1)⌋ + BOSS_MIN_DMG

/-- The slice of `GameState` that `triggerBossTurn` reads
(`Pick<GameState, "heroHp" | "isShielded" | "fullShield">`). -/
structure BossTurnInput where
  heroHp : Int
  isShielded : Bool
  fullShield : Bool
deriving DecidableEq

/-- The record returned by `triggerBossTurn`. -/
structure BossTurnResult where
  heroHp : Int
  isShielded : Bool
  fullShield : Bool
  log : String
deriving DecidableEq

/-- `triggerBossTurn(current)` of page.tsx, with the drawn raw damage as an
explicit argument (the source's draws are in `[10,20]`, where the source's
`Math.floor(rawDmg * 0.5)` is integer division by 2). -/
def triggerBossTurn (rawDmg : Int) (current : BossTurnInput) : BossTurnResult :=
  let actualDmg : Int :=
    if current.isShielded then
      if current.fullShield then 0 else rawDmg / 2
    else rawDmg
  let shieldNote : String :=
    if current.isShielded then
      if current.fullShield then " (fully blocked!)" else " (shielded!)"
    else ""
  { heroHp := clamp (current.heroHp - actualDmg) 0 100,
    isShielded := false, fullShield := false,
    log := "Overlord strikes for " ++ toString actualDmg ++ " damage" ++ shieldNote }

/-- The winner side of a finished match (`winner: "hero" | "boss"`). -/
inductive Winner
  | hero
  | boss
deriving DecidableEq

/-- The fields `checkEnd` writes (`gameOver`, `winner`). -/
structure EndCheck where
  gameOver : Bool
  winner : Option Winner
deriving DecidableEq

/-- `checkEnd` of page.tsx on resolved hp values: boss at 0 or below means a
hero win, then hero at 0 or below a boss win. -/
def checkEnd (heroHp bossHp : Int) : EndCheck :=
  if bossHp ≤ 0 then { gameOver := true, winner := some Winner.hero }
  else if heroHp ≤ 0 then { gameOver := true, winner := some Winner.boss }
  else { gameOver := false, winner := none }

/-- The observable outcome of one `playCard` turn. -/
structure TurnResult where
  heroHp : Int
  bossHp : Int
  gold : Int
  isShielded : Bool
  fullShield : Bool
  gameOver : Bool
  winner : Option Winner
  bossTurnExecuted : Bool
deriving DecidableEq

/-- The synchronous decision core of `playCard` of page.tsx: resolve the
card, run `checkEnd` on the card result; when the game is over, record the
outcome and skip the boss turn; otherwise run the boss turn (raw damage
`rawDmg`) and run `checkEnd` again. The second `checkEnd` reads the
pre-card `bossHp` (the source closure's stale `state.bossHp`, since
`afterBoss` carries no `bossHp` key), while the committed state keeps the
post-card `bossHp`. -/
def playCard (card : CardType) (s : ResolveInput) (rawDmg : Int) : TurnResult :=
  let r := resolveCardEffect card s
  let checked := checkEnd r.heroHp r.bossHp
  if checked.gameOver then
    { heroHp := r.heroHp, bossHp := r.bossHp, gold := r.gold,
      isShielded := r.isShielded, fullShield := r.fullShield,
      gameOver := true, winner := checked.winner, bossTurnExecuted := false }
  else
    let b := triggerBossTurn rawDmg { heroHp := r.heroHp, isShielded := r.isShielded, fullShield := r.fullShield }
    let fin := checkEnd b.heroHp s.bossHp
    { heroHp := b.heroHp, bossHp := r.bossHp, gold := r.gold,
      isShielded := b.isShielded, fullShield := b.fullShield,
      gameOver := fin.gameOver, winner := fin.winner, bossTurnExecuted := true }

/-! ## Result ledger: gated contract (src/contracts/GameResults.sol) -/

/-- An account address (Solidity `address`). -/
abbrev Address := Nat

/-- The `Stats` struct of both `GameResults` contracts. -/
structure Stats where
  wins : Nat
  losses : Nat
  gamesPlayed : Nat
deriving DecidableEq

namespace GameResults

/-- The storage of `src/contracts/GameResults.sol`:
`playerStats`, `balances`, `operator`, `gameFee`. -/
structure State where
  playerStats : Address → Stats
  balances : Address → Nat
  operator : Address
  gameFee : Nat

/-- The state after the constructor: zero-initialized mappings, `operator`
set to the deployer, `gameFee = 0.01 ether` (`10^16` wei). -/
def initState (deployer : Address) : State :=
  { playerStats := fun _ => { wins := 0, losses := 0, gamesPlayed := 0 },
    balances := fun _ => 0,
    operator := deployer,
    gameFee := 10 ^ 16 }

/-- `deposit()`: requires a positive attached value, then credits
`msg.sender`. `none` is a reverted call. -/
def deposit (sender : Address) (value : Nat) (st : State) : Option State :=
  if value > 0 then
    some { st with balances := Function.update st.balances sender (st.balances sender + value) }
  else
    none

/-- `withdraw()`: requires a positive balance, zeroes the caller's balance,
then performs the external transfer (the oracle `ext`, which observes the
contract state at the moment of the call); a failed transfer reverts the
whole call. -/
def withdraw (sender : Address) (ext : State → Bool) (st : State) : Option State :=
  if st.balances sender > 0 then
    if ext { st with balances := Function.update st.balances sender 0 } then
      some { st with balances := Function.update st.balances sender 0 }
    else none
  else
    none

/-- `recordGame(player, won, ...)`: the `onlyOperator` modifier runs first,
then `require(balances[player] >= gameFee)`, then the fee deduction and
the stats update, all in the same call. -/
def recordGame (sender player : Address) (won : Bool) (st : State) : Option State :=
  if sender = st.operator then
    if st.gameFee ≤ st.balances player then
      some { st with
        balances := Function.update st.balances player (st.balances player - st.gameFee),
        playerStats := Function.update st.playerStats player
          { wins := if won then (st.playerStats player).wins + 1 else (st.playerStats player).wins,
            losses := if won then (st.playerStats player).losses else (st.playerStats player).losses + 1,
            gamesPlayed := (st.playerStats player).gamesPlayed + 1 } }
    else
      none
  else
    none

/-- The contract states reachable from deployment through the mutating
entry points (`deposit`, `withdraw`, `recordGame`); a reverted call
(`none`) leaves no state. -/
inductive Reachable : State → Prop
  | deployed (deployer : Address) : Reachable (initState deployer)
  | depositStep {st st' : State} (sender : Address) (value : Nat) :
      Reachable st → deposit sender value st = some st' → Reachable st'
  | withdrawStep {st st' : State} (sender : Address) (ext : State → Bool) :
      Reachable st → withdraw sender ext st = some st' → Reachable st'
  | recordStep {st st' : State} (sender player : Address) (won : Bool) :
      Reachable st → recordGame sender player won st = some st' → Reachable st'

/-- The ledger invariant of the spec: every player record satisfies
`gamesPlayed = wins + losses`. -/
def StatsInv (st : State) : Prop :=
  ∀ a : Address, (st.playerStats a).gamesPlayed = (st.playerStats a).wins + (st.playerStats a).losses

end GameResults

/-! ## Result ledger: ungated contract variant (src/unnamed/part_000,
also named `GameResults` in source) -/

namespace GameResultsUngated

/-- The storage of the ungated variant: only `playerStats`. -/
structure State where
  playerStats : Address → Stats

/-- The state after deployment: zero-initialized mapping. -/
def initState : State :=
  { playerStats := fun _ => { wins := 0, losses := 0, gamesPlayed := 0 } }

/-- `recordGame(player, won, ...)` of the ungated variant: no modifier, no
`require`; the caller (`sender`, the transaction's `msg.sender`) is not
read at all. The call always succeeds. -/
def recordGame (sender player : Address) (won : Bool) (st : State) : State :=
  { playerStats := Function.update st.playerStats player
      { wins := if won then (st.playerStats player).wins + 1 else (st.playerStats player).wins,
        losses := if won then (st.playerStats player).losses else (st.playerStats player).losses + 1,
        gamesPlayed := (st.playerStats player).gamesPlayed + 1 } }

/-- The states reachable from deployment through `recordGame` (its only
mutating entry point). -/
inductive Reachable : State → Prop
  | deployed : Reachable initState
  | recordStep {st : State} (sender player : Address) (won : Bool) :
      Reachable st → Reachable (recordGame sender player won st)

/-- The ledger invariant: every player record satisfies
`gamesPlayed = wins + losses`. -/
def StatsInv (st : State) : Prop :=
  ∀ a : Address, (st.playerStats a).gamesPlayed = (st.playerStats a).wins + (st.playerStats a).losses

end GameResultsUngated

/-- A concrete ledger state used by witnesses: operator `7`, every balance
exactly one game fee, zero stats. -/
def sampleLedgerState : GameResults.State :=
  { playerStats := fun _ => { wins := 0, losses := 0, gamesPlayed := 0 },
    balances := fun _ => 10 ^ 16,
    operator := 7,
    gameFee := 10 ^ 16 }

/-! ## Helper lemmas about `clamp` -/

theorem le_clamp (val lo hi : Int) : lo ≤ clamp val lo hi :=
  le_max_left lo (min hi val)

theorem clamp_le (val lo hi : Int) (h : lo ≤ hi) : clamp val lo hi ≤ hi :=
  max_le h (min_le_left hi val)

theorem clamp_eq_self (val lo hi : Int) (h1 : lo ≤ val) (h2 : val ≤ hi) :
    clamp val lo hi = val := by
  unfold clamp
  omega

/-! ## Helper lemmas about the ledger contracts -/

namespace GameResults

/-- What a successful `deposit` call does. -/
theorem deposit_spec {sender : Address} {value : Nat} {st st' : State}
    (h : deposit sender value st = some st') :
    0 < value ∧
    st'.balances sender = st.balances sender + value ∧
    (∀ a : Address, a ≠ sender → st'.balances a = st.balances a) ∧
    st'.playerStats = st.playerStats ∧
    st'.operator = st.operator ∧ st'.gameFee = st.gameFee := by
  unfold deposit at h
  split at h
  · injection h with h2
    subst h2
    refine ⟨by omega, by simp, fun a ha => ?_, rfl, rfl, rfl⟩
    simp [Function.update, ha]
  · exact absurd h (by simp)

/-- What a successful `recordGame` call does. -/
theorem recordGame_spec {sender player : Address} {won : Bool} {st st' : State}
    (h : recordGame sender player won st = some st') :
    sender = st.operator ∧
    st.gameFee ≤ st.balances player ∧
    st'.balances player = st.balances player - st.gameFee ∧
    (∀ a : Address, a ≠ player → st'.balances a = st.balances a) ∧
    st'.playerStats player =
      { wins := if won then (st.playerStats player).wins + 1 else (st.playerStats player).wins,
        losses := if won then (st.playerStats player).losses else (st.playerStats player).losses + 1,
        gamesPlayed := (st.playerStats player).gamesPlayed + 1 } ∧
    (∀ a : Address, a ≠ player → st'.playerStats a = st.playerStats a) ∧
    st'.operator = st.operator ∧ st'.gameFee = st.gameFee := by
  unfold recordGame at h
  split at h
  · split at h
    · injection h with h2
      subst h2
      refine ⟨by assumption, by assumption, by simp, fun a ha => ?_, by simp,
        fun a ha => ?_, rfl, rfl⟩
      · simp [Function.update, ha]
      · simp [Function.update, ha]
    · exact absurd h (by simp)
  · exact absurd h (by simp)

/-- When `recordGame` succeeds. -/
theorem recordGame_isSome_iff (sender player : Address) (won : Bool) (st : State) :
    (recordGame sender player won st).isSome ↔
      sender = st.operator ∧ st.gameFee ≤ st.balances player := by
  unfold recordGame
  split <;> [skip; simp_all]
  split <;> simp_all

/-- Every state reachable from deployment satisfies the stats invariant. -/
theorem reachable_statsInv {st : State} (h : Reachable st) : StatsInv st := by
  induction h with
  | deployed deployer => intro a; rfl
  | depositStep sender value _ heq ih =>
      intro a
      rw [(deposit_spec heq).2.2.2.1]
      exact ih a
  | withdrawStep sender ext _ heq ih =>
      unfold withdraw at heq
      split at heq
      · split at heq
        · injection heq with h2
          subst h2
          intro a
          exact ih a
        · exact absurd heq (by simp)
      · exact absurd heq (by simp)
  | recordStep sender player won _ heq ih =>
      obtain ⟨-, -, -, -, hstats, hother, -, -⟩ := recordGame_spec heq
      intro a
      by_cases hap : a = player
      · subst hap
        have h3 := ih a
        rw [hstats]
        cases won <;> simp <;> omega
      · rw [hother a hap]
        exact ih a

end GameResults

namespace GameResultsUngated

/-- What `recordGame` of the ungated variant does (it always succeeds). -/
theorem recordGame_spec_ungated (sender player : Address) (won : Bool) (st : State) :
    (recordGame sender player won st).playerStats player =
      { wins := if won then (st.playerStats player).wins + 1 else (st.playerStats player).wins,
        losses := if won then (st.playerStats player).losses else (st.playerStats player).losses + 1,
        gamesPlayed := (st.playerStats player).gamesPlayed + 1 } ∧
    (∀ a : Address, a ≠ player →
      (recordGame sender player won st).playerStats a = st.playerStats a) := by
  refine ⟨by simp [recordGame], fun a ha => ?_⟩
  simp [recordGame, Function.update, ha]

/-- Every reachable state of the ungated variant satisfies the stats
invariant. -/
theorem reachable_statsInv_ungated {st : State} (h : Reachable st) : StatsInv st := by
  induction h with
  | deployed => intro a; rfl
  | recordStep sender player won _ ih =>
      intro a
      by_cases hap : a = player
      · subst hap
        have h3 := ih a
        rw [(recordGame_spec_ungated sender a won _).1]
        cases won <;> simp <;> omega
      · rw [(recordGame_spec_ungated sender player won _).2 a hap]
        exact ih a

end GameResultsUngated

/-! ## Claims about the battle engine -/

/-- C1: for every input state with `heroHp` and `bossHp` in `[0,100]` and
every card, the state returned by `resolveCardEffect` has `heroHp` and
`bossHp` in `[0,100]`; likewise, for every input state with `heroHp` in
`[0,100]`, the `heroHp` returned by `triggerBossTurn` is in `[0,100]` for
every possible raw damage draw. -/
theorem claim_C1 :
    (∀ (card : CardType) (s : ResolveInput),
        0 ≤ s.heroHp → s.heroHp ≤ 100 → 0 ≤ s.bossHp → s.bossHp ≤ 100 →
        0 ≤ (resolveCardEffect card s).heroHp ∧ (resolveCardEffect card s).heroHp ≤ 100 ∧
        0 ≤ (resolveCardEffect card s).bossHp ∧ (resolveCardEffect card s).bossHp ≤ 100) ∧
    (∀ (rawDmg : Int) (b : BossTurnInput),
        0 ≤ b.heroHp → b.heroHp ≤ 100 →
        0 ≤ (triggerBossTurn rawDmg b).heroHp ∧ (triggerBossTurn rawDmg b).heroHp ≤ 100) := by
  constructor
  · intro card s h1 h2 h3 h4
    cases card <;> simp only [resolveCardEffect, clamp] <;> (try split_ifs) <;>
      (try dsimp only) <;> omega
  · intro rawDmg b h1 h2
    simp only [triggerBossTurn, clamp]
    omega

/-- Witness for C1 at a concrete state, card and raw damage. -/
theorem claim_C1_witness :
    (0 ≤ (resolveCardEffect CardType.berserk_rage ⟨5, 20, 50, false, false⟩).heroHp ∧
     (resolveCardEffect CardType.berserk_rage ⟨5, 20, 50, false, false⟩).heroHp ≤ 100 ∧
     0 ≤ (resolveCardEffect CardType.berserk_rage ⟨5, 20, 50, false, false⟩).bossHp ∧
     (resolveCardEffect CardType.berserk_rage ⟨5, 20, 50, false, false⟩).bossHp ≤ 100) ∧
    (0 ≤ (triggerBossTurn 17 ⟨5, false, false⟩).heroHp ∧
     (triggerBossTurn 17 ⟨5, false, false⟩).heroHp ≤ 100) :=
  ⟨claim_C1.1 CardType.berserk_rage ⟨5, 20, 50, false, false⟩
      (by decide) (by decide) (by decide) (by decide),
   claim_C1.2 17 ⟨5, false, false⟩ (by decide) (by decide)⟩

/-- C5: the boss turn's raw damage draw is an integer in `[10,20]`; for
every such raw value: with a full shield the applied damage is `0` (so
`heroHp` is unchanged when it was in `[0,100]`), with a half shield the
applied damage is `⌊rawDamage / 2⌋`, and with no shield the full raw
damage applies; the resulting `heroHp` is the old `heroHp` minus the
applied damage, clamped to `[0,100]`. -/
theorem claim_C5 :
    (∀ u : ℚ, 0 ≤ u → u < 1 →
        BOSS_MIN_DMG ≤ bossRawDmg u ∧ bossRawDmg u ≤ BOSS_MAX_DMG) ∧
    (∀ (rawDmg : Int) (b : BossTurnInput), 10 ≤ rawDmg → rawDmg ≤ 20 →
        (b.isShielded = true → b.fullShield = true →
          (triggerBossTurn rawDmg b).heroHp = clamp (b.heroHp - 0) 0 100 ∧
          (0 ≤ b.heroHp → b.heroHp ≤ 100 → (triggerBossTurn rawDmg b).heroHp = b.heroHp)) ∧
        (b.isShielded = true → b.fullShield = false →
          (triggerBossTurn rawDmg b).heroHp = clamp (b.heroHp - rawDmg / 2) 0 100) ∧
        (b.isShielded = false →
          (triggerBossTurn rawDmg b).heroHp = clamp (b.heroHp - rawDmg) 0 100)) := by
  constructor
  · intro u h0 h1
    have h11 : (BOSS_MAX_DMG : ℚ) - (BOSS_MIN_DMG : ℚ) + 1 = 11 := by
      norm_num [BOSS_MAX_DMG, BOSS_MIN_DMG]
    unfold bossRawDmg
    rw [h11]
    have hf0 : (0 : ℤ) ≤ ⌊u * 11⌋ := Int.floor_nonneg.mpr (by positivity)
    have hf1 : ⌊u * 11⌋ < 11 := by
      rw [Int.floor_lt]
      push_cast
      nlinarith
    unfold BOSS_MIN_DMG BOSS_MAX_DMG
    omega
  · intro rawDmg b h10 h20
    obtain ⟨hp, sh, fs⟩ := b
    refine ⟨?_, ?_, ?_⟩
    · intro hsh hfs
      subst hsh
      subst hfs
      refine ⟨by simp [triggerBossTurn], ?_⟩
      intro hh1 hh2
      simp only [triggerBossTurn, if_true]
      simp only [sub_zero]
      exact clamp_eq_self hp 0 100 hh1 hh2
    · intro hsh hfs
      subst hsh
      subst hfs
      simp [triggerBossTurn]
    · intro hsh
      subst hsh
      simp [triggerBossTurn]

/-- Witness for C5 at the unit draw `1/2`, raw damage `13` and a
half-shielded state. -/
theorem claim_C5_witness :
    (BOSS_MIN_DMG ≤ bossRawDmg (1 / 2) ∧ bossRawDmg (1 / 2) ≤ BOSS_MAX_DMG) ∧
    (triggerBossTurn 13 ⟨50, true, false⟩).heroHp = clamp (50 - 13 / 2) 0 100 :=
  ⟨claim_C5.1 (1 / 2) (by norm_num) (by norm_num),
   ((claim_C5.2 13 ⟨50, true, false⟩ (by decide) (by decide)).2.1 rfl rfl)⟩

/-- C6: `resolveCardEffect` is a total function (never fails); playing the
5-gold-cost `phantom_strike` with `gold < 5` leaves `heroHp`, `bossHp`,
`gold` and both shield flags unchanged, returns `bossDamaged = false` and
the distinct fizzle log message; in particular with `gold = 3` the gold
stays `3` and `bossHp` is unchanged. -/
theorem claim_C6 :
    (∀ (card : CardType) (s : ResolveInput), ∃ r : ResolveResult, resolveCardEffect card s = r) ∧
    (∀ s : ResolveInput, s.gold < 5 →
        resolveCardEffect CardType.phantom_strike s =
          { heroHp := s.heroHp, bossHp := s.bossHp, gold := s.gold,
            isShielded := s.isShielded, fullShield := s.fullShield,
            log := "Phantom Strike fizzles... not enough Gold!", bossDamaged := false } ∧
        "Phantom Strike fizzles... not enough Gold!" ≠
          "Phantom Strike deals 25 damage! (-5 Gold)") ∧
    ((resolveCardEffect CardType.phantom_strike ⟨100, 100, 3, false, false⟩).gold = 3 ∧
     (resolveCardEffect CardType.phantom_strike ⟨100, 100, 3, false, false⟩).bossHp = 100) := by
  refine ⟨fun card s => ⟨resolveCardEffect card s, rfl⟩, ?_, by decide⟩
  intro s h
  refine ⟨?_, by decide⟩
  simp only [resolveCardEffect]
  rw [if_neg (by omega)]

/-- Witness for C6 at a concrete state with `gold = 3`. -/
theorem claim_C6_witness :
    resolveCardEffect CardType.phantom_strike ⟨100, 100, 3, false, false⟩ =
      { heroHp := 100, bossHp := 100, gold := 3, isShielded := false, fullShield := false,
        log := "Phantom Strike fizzles... not enough Gold!", bossDamaged := false } :=
  (claim_C6.2.1 ⟨100, 100, 3, false, false⟩ (by decide)).1

/-- C7: the boss turn runs exactly when the post-card `checkEnd` does not
end the game, so a card resolution that drives a hp to `0` transitions
immediately to the terminal outcome with the boss turn skipped; from
`heroHp = 100`, `bossHp = 10`, a card dealing 15 boss damage yields
`bossHp = 0`, outcome hero-win, and no boss turn, whatever raw damage the
skipped boss turn would have drawn. -/
theorem claim_C7 :
    (∀ (card : CardType) (s : ResolveInput) (rawDmg : Int),
        (playCard card s rawDmg).bossTurnExecuted =
          !(checkEnd (resolveCardEffect card s).heroHp
              (resolveCardEffect card s).bossHp).gameOver) ∧
    (∀ rawDmg : Int,
        playCard CardType.knights_strike ⟨100, 10, 50, false, false⟩ rawDmg =
          { heroHp := 100, bossHp := 0, gold := 50, isShielded := false, fullShield := false,
            gameOver := true, winner := some Winner.hero, bossTurnExecuted := false }) := by
  constructor
  · intro card s rawDmg
    simp only [playCard]
    split <;> simp_all
  · intro rawDmg
    rfl

/-- C8: for every input state (whether or not a shield was active, full or
half), the state returned by `triggerBossTurn` has `isShielded = false` and
`fullShield = false`: shield flags are always cleared by the boss turn. -/
theorem claim_C8 (rawDmg : Int) (b : BossTurnInput) :
    (triggerBossTurn rawDmg b).isShielded = false ∧
    (triggerBossTurn rawDmg b).fullShield = false := by
  simp [triggerBossTurn]

/-! ## Claims about the result ledger -/

/-- C2: in every contract state reachable from the initial (all-zero)
state, every player record satisfies `gamesPlayed = wins + losses`; each
successful `recordGame` increments `gamesPlayed` by exactly `1` and
exactly one of `wins` or `losses` by exactly `1`; both for the gated and
the ungated contract variant. -/
theorem claim_C2 :
    (∀ st : GameResults.State, GameResults.Reachable st → GameResults.StatsInv st) ∧
    (∀ (sender player : Address) (won : Bool) (st st' : GameResults.State),
        GameResults.recordGame sender player won st = some st' →
        (st'.playerStats player).gamesPlayed = (st.playerStats player).gamesPlayed + 1 ∧
        (st'.playerStats player).wins =
          (if won then (st.playerStats player).wins + 1 else (st.playerStats player).wins) ∧
        (st'.playerStats player).losses =
          (if won then (st.playerStats player).losses else (st.playerStats player).losses + 1)) ∧
    (∀ st : GameResultsUngated.State,
        GameResultsUngated.Reachable st → GameResultsUngated.StatsInv st) ∧
    (∀ (sender player : Address) (won : Bool) (st : GameResultsUngated.State),
        ((GameResultsUngated.recordGame sender player won st).playerStats player).gamesPlayed =
          (st.playerStats player).gamesPlayed + 1 ∧
        ((GameResultsUngated.recordGame sender player won st).playerStats player).wins =
          (if won then (st.playerStats player).wins + 1 else (st.playerStats player).wins) ∧
        ((GameResultsUngated.recordGame sender player won st).playerStats player).losses =
          (if won then (st.playerStats player).losses else (st.playerStats player).losses + 1)) := by
  refine ⟨fun st h => GameResults.reachable_statsInv h, ?_, 
    fun st h => GameResultsUngated.reachable_statsInv_ungated h, ?_⟩
  · intro sender player won st st' h
    obtain ⟨-, -, -, -, hstats, -, -, -⟩ := GameResults.recordGame_spec h
    rw [hstats]
    cases won <;> simp
  · intro sender player won st
    rw [(GameResultsUngated.recordGame_spec_ungated sender player won st).1]
    cases won <;> simp

/-- Witness for C2: the freshly deployed gated ledger satisfies the
invariant at a concrete address, and a concrete ungated `recordGame`
increments `gamesPlayed`. -/
theorem claim_C2_witness :
    ((GameResults.initState 0).playerStats 3).gamesPlayed =
      ((GameResults.initState 0).playerStats 3).wins +
        ((GameResults.initState 0).playerStats 3).losses ∧
    ((GameResultsUngated.recordGame 1 2 true GameResultsUngated.initState).playerStats 2).gamesPlayed =
      (GameResultsUngated.initState.playerStats 2).gamesPlayed + 1 :=
  ⟨claim_C2.1 (GameResults.initState 0) (GameResults.Reachable.deployed 0) 3,
   (claim_C2.2.2.2 1 2 true GameResultsUngated.initState).1⟩

/-- C3: the gated `recordGame` succeeds exactly when the caller is the
operator and the player's balance is at least `gameFee`; on success it
deducts exactly `gameFee` from the player's balance and updates the stats
in the same call; otherwise the entire call aborts (`none`: no deduction,
no stat update). -/
theorem claim_C3 (sender player : Address) (won : Bool) (st : GameResults.State) :
    ((GameResults.recordGame sender player won st).isSome ↔
      sender = st.operator ∧ st.gameFee ≤ st.balances player) ∧
    (∀ st' : GameResults.State, GameResults.recordGame sender player won st = some st' →
      st'.balances player = st.balances player - st.gameFee ∧
      (∀ a : Address, a ≠ player → st'.balances a = st.balances a) ∧
      (st'.playerStats player).gamesPlayed = (st.playerStats player).gamesPlayed + 1 ∧
      (st'.playerStats player).wins =
        (if won then (st.playerStats player).wins + 1 else (st.playerStats player).wins) ∧
      (st'.playerStats player).losses =
        (if won then (st.playerStats player).losses else (st.playerStats player).losses + 1)) ∧
    (¬(sender = st.operator ∧ st.gameFee ≤ st.balances player) →
      GameResults.recordGame sender player won st = none) := by
  refine ⟨GameResults.recordGame_isSome_iff sender player won st, ?_, ?_⟩
  · intro st' h
    obtain ⟨-, -, hbal, hobal, hstats, -, -, -⟩ := GameResults.recordGame_spec h
    rw [hstats]
    refine ⟨hbal, hobal, ?_⟩
    cases won <;> simp
  · intro hno
    rcases hopt : GameResults.recordGame sender player won st with _ | st'
    · rfl
    · exact absurd ((GameResults.recordGame_isSome_iff sender player won st).mp
        (by rw [hopt]; rfl)) hno

/-- Witness for C3: with operator `7` and a balance of exactly one fee
the call succeeds, while caller `8` is refused. -/
theorem claim_C3_witness :
    (GameResults.recordGame 7 3 true sampleLedgerState).isSome ∧
    GameResults.recordGame 8 3 true sampleLedgerState = none :=
  ⟨(claim_C3 7 3 true sampleLedgerState).1.mpr ⟨rfl, le_refl _⟩,
   (claim_C3 8 3 true sampleLedgerState).2.2 (by rintro ⟨h, -⟩; exact absurd h (by decide))⟩

/-- C4: `withdraw` with a zero balance aborts the whole call (no transfer
attempted, no state change, so the balance stays `0`); with a positive
balance the caller's balance is set to `0` before the outgoing transfer
(the external call observes the zeroed balance), the call commits that
zeroed state exactly when the transfer succeeds, and a failed transfer
aborts the whole call with no observable state change. -/
theorem claim_C4 (sender : Address) (ext : GameResults.State → Bool)
    (st : GameResults.State) :
    (st.balances sender = 0 → GameResults.withdraw sender ext st = none) ∧
    (0 < st.balances sender →
      GameResults.withdraw sender ext st =
        (if ext { st with balances := Function.update st.balances sender 0 } then
          some { st with balances := Function.update st.balances sender 0 }
        else none) ∧
      ({ st with balances := Function.update st.balances sender 0 } :
          GameResults.State).balances sender = 0) := by
  constructor
  · intro h0
    unfold GameResults.withdraw
    rw [if_neg (by omega)]
  · intro hpos
    refine ⟨?_, by simp⟩
    unfold GameResults.withdraw
    rw [if_pos hpos]

/-- Witness for C4: on a fresh ledger the zero-balance call aborts, and
with a positive balance a failing transfer aborts the call. -/
theorem claim_C4_witness :
    GameResults.withdraw 3 (fun _ => true) (GameResults.initState 0) = none ∧
    GameResults.withdraw 3 (fun _ => false) sampleLedgerState =
      (if (fun _ => false : GameResults.State → Bool)
          { sampleLedgerState with
            balances := Function.update sampleLedgerState.balances 3 0 } then
        some { sampleLedgerState with
          balances := Function.update sampleLedgerState.balances 3 0 }
      else none) :=
  ⟨(claim_C4 3 (fun _ => true) (GameResults.initState 0)).1 rfl,
   ((claim_C4 3 (fun _ => false) sampleLedgerState).2 (by norm_num [sampleLedgerState])).1⟩

/-- C9: `deposit` aborts (reverting all state) when called with zero
attached value; for every positive attached value `v` it succeeds,
increases exactly the caller's balance by `v`, and changes no other
player's balance and no stats. -/
theorem claim_C9 (sender : Address) (v : Nat) (st : GameResults.State) :
    GameResults.deposit sender 0 st = none ∧
    (0 < v → (GameResults.deposit sender v st).isSome) ∧
    (∀ st' : GameResults.State, GameResults.deposit sender v st = some st' →
      st'.balances sender = st.balances sender + v ∧
      (∀ a : Address, a ≠ sender → st'.balances a = st.balances a) ∧
      st'.playerStats = st.playerStats) := by
  refine ⟨by unfold GameResults.deposit; simp, ?_, ?_⟩
  · intro hv
    unfold GameResults.deposit
    rw [if_pos hv]
    rfl
  · intro st' h
    obtain ⟨-, hbal, hobal, hstats, -, -⟩ := GameResults.deposit_spec h
    exact ⟨hbal, hobal, hstats⟩

/-- Witness for C9: on a fresh ledger, depositing `0` aborts and
depositing `5` succeeds. -/
theorem claim_C9_witness :
    GameResults.deposit 3 0 (GameResults.initState 0) = none ∧
    (GameResults.deposit 3 5 (GameResults.initState 0)).isSome :=
  ⟨(claim_C9 3 0 (GameResults.initState 0)).1,
   (claim_C9 3 5 (GameResults.initState 0)).2.1 (by norm_num)⟩

/-- C10: the ungated `recordGame` imposes no caller restriction and no
balance requirement: it is a total function whose result does not depend
on the caller, and for every caller and player it increments that
player's counters (and touches no other player's record), so any address
can write match outcomes for any player. -/
theorem claim_C10 (sender sender2 player : Address) (won : Bool)
    (st : GameResultsUngated.State) :
    GameResultsUngated.recordGame sender player won st =
      GameResultsUngated.recordGame sender2 player won st ∧
    ((GameResultsUngated.recordGame sender player won st).playerStats player).gamesPlayed =
      (st.playerStats player).gamesPlayed + 1 ∧
    ((GameResultsUngated.recordGame sender player won st).playerStats player).wins =
      (if won then (st.playerStats player).wins + 1 else (st.playerStats player).wins) ∧
    ((GameResultsUngated.recordGame sender player won st).playerStats player).losses =
      (if won then (st.playerStats player).losses else (st.playerStats player).losses + 1) ∧
    (∀ a : Address, a ≠ player →
      (GameResultsUngated.recordGame sender player won st).playerStats a = st.playerStats a) := by
  refine ⟨rfl, ?_, ?_, ?_, (GameResultsUngated.recordGame_spec_ungated sender player won st).2⟩ <;>
    rw [(GameResultsUngated.recordGame_spec_ungated sender player won st).1] <;>
    cases won <;> simp

/-- Witness for C10: caller `9` (not the deployer, not the player) records
a loss for player `2` on a fresh ungated ledger. -/
theorem claim_C10_witness :
    ((GameResultsUngated.recordGame 9 2 false GameResultsUngated.initState).playerStats 2).losses =
      (GameResultsUngated.initState.playerStats 2).losses + 1 ∧
    (GameResultsUngated.recordGame 9 2 false GameResultsUngated.initState).playerStats 5 =
      GameResultsUngated.initState.playerStats 5 :=
  ⟨by
    have h := (claim_C10 9 9 2 false GameResultsUngated.initState).2.2.2.1
    simpa using h,
   (claim_C10 9 9 2 false GameResultsUngated.initState).2.2.2.2 5 (by decide)⟩
